import Mathlib

/-!
Verification of the synthetic survey-dataset generator of Process-SEM
(`src/1_Dataset/generate_empirical_dataset.py`) against its natural-language
specification.  The Python source is shallowly embedded: every random draw
(NumPy normal / exponential / uniform / choice outcomes) becomes an explicit
input of the corresponding Lean function, floats become exact rationals, and
NumPy's `astype(int)`, `round` and `clip` become the explicit integer
operations defined below.
-/

namespace ProcessSEM

/-! ### Configuration constants (source lines 35-40) -/

def N_TOTAL : ℕ := 5000

def FAST_TARGET : ℚ := 0.27

def FAST_CONF_SCALE : ℚ := 0.20

def FAST_BASE_SHIFT : ℚ := 0.04

def PELL_TARGET : ℚ := 0.52

def SEX_FEMALE_PROB : ℚ := 0.53

/-! ### Archetype catalog (source lines 50-208)

One record per entry of the `ARCHETYPES` dict.  Only the numeric fields the
claims touch are carried; demographic string fields that are fixed per
archetype (race, sex, living situation) play no role in any claim and are
represented by the archetype id itself where needed. -/

structure ArchSpec where
  id : ℕ
  name : String
  prevalence : ℚ
  firstgenProb : ℚ
  pellProb : ℚ
  fastProb : ℚ
  baseEmoDiss : ℚ
  baseQualEngag : ℚ
  baseBelong : ℚ
  baseGains : ℚ
  baseSupportEnv : ℚ
  baseSatisf : ℚ
  a1 : ℚ
  a2 : ℚ
  doseAmplify : ℚ
deriving DecidableEq

def ARCHETYPES : List ArchSpec :=
  [ ⟨1, "Latina Commuter Caretaker", 0.25, 0.65, 0.60, 0.20,
      4.2, 4.5, 2.8, 3.0, 2.7, 2.9, 0.25, -0.20, 1.2⟩,
    ⟨2, "Latino Off-Campus Working", 0.09, 0.60, 0.55, 0.25,
      3.8, 4.8, 2.7, 2.8, 2.6, 2.8, 0.15, -0.05, 1.1⟩,
    ⟨3, "Asian High-Pressure Achiever", 0.11, 0.15, 0.12, 0.45,
      4.5, 5.0, 2.5, 3.2, 2.8, 3.0, 0.00, 0.00, 0.0⟩,
    ⟨4, "Asian First-Gen Navigator", 0.04, 0.65, 0.60, 0.30,
      4.8, 4.3, 2.3, 2.9, 2.4, 2.6, 0.20, -0.15, 1.3⟩,
    ⟨5, "Black Campus Connector", 0.025, 0.55, 0.50, 0.15,
      3.5, 5.2, 2.6, 3.0, 2.7, 2.9, 0.18, -0.12, 1.1⟩,
    ⟨6, "White Residential Traditional", 0.03, 0.12, 0.18, 0.35,
      2.8, 5.8, 3.3, 3.1, 3.2, 3.4, -0.10, 0.12, -0.5⟩,
    ⟨7, "White Off-Campus Working", 0.03, 0.45, 0.50, 0.20,
      3.7, 4.4, 2.5, 2.7, 2.5, 2.7, 0.05, -0.02, 0.0⟩,
    ⟨8, "Multiracial Bridge-Builder", 0.10, 0.40, 0.42, 0.25,
      3.4, 5.1, 2.7, 3.0, 2.8, 3.0, 0.05, 0.00, 0.0⟩,
    ⟨9, "Hispanic On-Campus Transitioner", 0.20, 0.50, 0.45, 0.30,
      3.3, 5.3, 3.0, 3.1, 3.0, 3.1, 0.08, -0.05, 0.5⟩,
    ⟨10, "Continuing-Gen Cruiser", 0.04, 0.10, 0.15, 0.40,
      2.5, 5.5, 3.2, 2.9, 3.1, 3.3, -0.12, 0.15, -0.5⟩,
    ⟨11, "White Rural First-Gen", 0.04, 0.60, 0.55, 0.22,
      3.5, 4.6, 2.6, 2.8, 2.6, 2.8, 0.12, -0.08, 0.8⟩,
    ⟨12, "Black Male Striver", 0.015, 0.50, 0.45, 0.18,
      3.6, 4.7, 2.5, 2.9, 2.5, 2.7, 0.15, -0.10, 1.0⟩,
    ⟨13, "White Working-Class Striver", 0.03, 0.50, 0.45, 0.18,
      3.8, 4.3, 2.4, 2.7, 2.4, 2.6, 0.10, -0.06, 0.7⟩ ]

/-! ### Sample-size allocation (source lines 537-546)

`archetype_ns[arch_id] = int(N_TOTAL * prevalence)` for every archetype whose
id is below the maximum id, and the maximum-id archetype receives
`N_TOTAL - total_assigned`.  `int(...)` of a non-negative float is a floor. -/

def maxArchIdOf (cat : List ArchSpec) : ℕ :=
  (cat.map (fun a => a.id)).foldl max 0

def floorAlloc (N : ℕ) (p : ℚ) : ℤ :=
  ⌊(N : ℚ) * p⌋

def assignedBeforeLast (cat : List ArchSpec) (N : ℕ) : ℤ :=
  ((cat.filter (fun a => a.id < maxArchIdOf cat)).map
    (fun a => floorAlloc N a.prevalence)).sum

def allocCountsFor (cat : List ArchSpec) (N : ℕ) : List (ℕ × ℤ) :=
  cat.map (fun a =>
    (a.id,
      if a.id < maxArchIdOf cat then floorAlloc N a.prevalence
      else (N : ℤ) - assignedBeforeLast cat N))

def allocCounts (N : ℕ) : List (ℕ × ℤ) :=
  allocCountsFor ARCHETYPES N

/-- The assigned total over the twelve non-final archetypes, written out. -/
def assignedTotal (N : ℕ) : ℤ :=
  floorAlloc N 0.25 + floorAlloc N 0.09 + floorAlloc N 0.11 +
  floorAlloc N 0.04 + floorAlloc N 0.025 + floorAlloc N 0.03 +
  floorAlloc N 0.03 + floorAlloc N 0.10 + floorAlloc N 0.20 +
  floorAlloc N 0.04 + floorAlloc N 0.04 + floorAlloc N 0.015

lemma assignedBeforeLast_eq (N : ℕ) :
    assignedBeforeLast ARCHETYPES N = assignedTotal N := by
  simp [assignedBeforeLast, ARCHETYPES, maxArchIdOf, assignedTotal]
  norm_num
  ring

lemma allocCounts_explicit (N : ℕ) :
    allocCounts N =
      [(1, floorAlloc N 0.25), (2, floorAlloc N 0.09), (3, floorAlloc N 0.11),
       (4, floorAlloc N 0.04), (5, floorAlloc N 0.025), (6, floorAlloc N 0.03),
       (7, floorAlloc N 0.03), (8, floorAlloc N 0.10), (9, floorAlloc N 0.20),
       (10, floorAlloc N 0.04), (11, floorAlloc N 0.04), (12, floorAlloc N 0.015),
       (13, (N : ℤ) - assignedTotal N)] := by
  rw [show allocCounts N = allocCountsFor ARCHETYPES N from rfl]
  rw [show allocCountsFor ARCHETYPES N
      = ARCHETYPES.map (fun a =>
          (a.id,
            if a.id < maxArchIdOf ARCHETYPES then floorAlloc N a.prevalence
            else (N : ℤ) - assignedBeforeLast ARCHETYPES N)) from rfl]
  rw [assignedBeforeLast_eq]
  have hmax : maxArchIdOf ARCHETYPES = 13 := by decide
  rw [hmax, ARCHETYPES]
  norm_num

lemma assignedTotal_le (N : ℕ) : assignedTotal N ≤ (N : ℤ) := by
  have hNq : (0 : ℚ) ≤ (N : ℚ) := Nat.cast_nonneg N
  have h1 : (↑(floorAlloc N 0.25) : ℚ) ≤ (N : ℚ) * 0.25 := Int.floor_le _
  have h2 : (↑(floorAlloc N 0.09) : ℚ) ≤ (N : ℚ) * 0.09 := Int.floor_le _
  have h3 : (↑(floorAlloc N 0.11) : ℚ) ≤ (N : ℚ) * 0.11 := Int.floor_le _
  have h4 : (↑(floorAlloc N 0.04) : ℚ) ≤ (N : ℚ) * 0.04 := Int.floor_le _
  have h5 : (↑(floorAlloc N 0.025) : ℚ) ≤ (N : ℚ) * 0.025 := Int.floor_le _
  have h6 : (↑(floorAlloc N 0.03) : ℚ) ≤ (N : ℚ) * 0.03 := Int.floor_le _
  have h8 : (↑(floorAlloc N 0.10) : ℚ) ≤ (N : ℚ) * 0.10 := Int.floor_le _
  have h9 : (↑(floorAlloc N 0.20) : ℚ) ≤ (N : ℚ) * 0.20 := Int.floor_le _
  have h12 : (↑(floorAlloc N 0.015) : ℚ) ≤ (N : ℚ) * 0.015 := Int.floor_le _
  have key : ((assignedTotal N : ℤ) : ℚ) ≤ (N : ℚ) := by
    rw [assignedTotal]
    push_cast
    nlinarith [h1, h2, h3, h4, h5, h6, h8, h9, h12]
  exact_mod_cast key

lemma floorAlloc_nonneg (N : ℕ) (p : ℚ) (hp : 0 ≤ p) : 0 ≤ floorAlloc N p :=
  Int.floor_nonneg.mpr (mul_nonneg (Nat.cast_nonneg N) hp)

/-- C4: the allocation assigns `⌊N·prevalence⌋` to every archetype except the
one with the highest id, which receives `N` minus the sum of the others;
every count is non-negative and the counts sum to `N` exactly. -/
theorem alloc_counts_nonneg_sum_eq (N : ℕ) (hN : 13 ≤ N) :
    (∀ a ∈ ARCHETYPES, a.id ≠ maxArchIdOf ARCHETYPES →
      (a.id, floorAlloc N a.prevalence) ∈ allocCounts N)
    ∧ (∀ pr ∈ allocCounts N, 0 ≤ pr.2)
    ∧ ((allocCounts N).map Prod.snd).sum = N := by
  have hmax : maxArchIdOf ARCHETYPES = 13 := by decide
  refine ⟨?_, ?_, ?_⟩
  · intro a ha hne
    rw [hmax] at hne
    rw [allocCounts_explicit]
    fin_cases ha <;> norm_num at hne ⊢
  · intro pr hpr
    rw [allocCounts_explicit] at hpr
    have hle := assignedTotal_le N
    simp only [List.mem_cons, List.not_mem_nil, or_false] at hpr
    rcases hpr with rfl | rfl | rfl | rfl | rfl | rfl | rfl | rfl | rfl | rfl | rfl | rfl | rfl
    all_goals first
      | exact floorAlloc_nonneg N _ (by norm_num)
      | (show (0 : ℤ) ≤ (N : ℤ) - assignedTotal N; omega)
  · rw [allocCounts_explicit]
    simp only [List.map_cons, List.map_nil, List.sum_cons, List.sum_nil, assignedTotal]
    ring

/-- Witness for C4 at the source's own N = 5000. -/
theorem alloc_counts_nonneg_sum_eq_witness :
    (13 ≤ 5000)
    ∧ ((∀ a ∈ ARCHETYPES, a.id ≠ maxArchIdOf ARCHETYPES →
        (a.id, floorAlloc 5000 a.prevalence) ∈ allocCounts 5000)
      ∧ (∀ pr ∈ allocCounts 5000, 0 ≤ pr.2)
      ∧ ((allocCounts 5000).map Prod.snd).sum = 5000) :=
  ⟨by norm_num, alloc_counts_nonneg_sum_eq 5000 (by norm_num)⟩

/-! ### Treatment and dose (source lines 335-376, `generate_treatment_and_dose`)

Per-row embedding.  The three `np.random.exponential` outcomes are inputs
(`DoseDraws`); an exponential variate is non-negative, which becomes an
explicit hypothesis where needed.  `np.clip(p, 0.05, 0.80)` is
`min 0.80 (max 0.05 p)`. -/

def base_prob (fastProb fastScale : ℚ) : ℚ :=
  max 0.05 (fastProb * fastScale - FAST_BASE_SHIFT)

def propensity (fastProb fastScale : ℚ) (hgrades hapcl : ℤ) (bparented : ℚ) : ℚ :=
  min 0.80 (max 0.05
    (base_prob fastProb fastScale
      + ((hgrades : ℚ) - 5) * 0.05 * FAST_CONF_SCALE
      + (hapcl : ℚ) * 0.10 * FAST_CONF_SCALE
      + (bparented - 4) * 0.03 * FAST_CONF_SCALE))

structure DoseDraws where
  expBase : ℚ
  expGrades : ℚ
  expAp : ℚ
deriving DecidableEq

/-- Source: `base_credits = 12 + exponential(15)`, plus `exponential(10)` when
`hgrades >= 7` and `exponential(8)` when `hapcl == 1`. -/
def base_credits (hgrades hapcl : ℤ) (d : DoseDraws) : ℚ :=
  12 + d.expBase + (if 7 ≤ hgrades then d.expGrades else 0)
    + (if hapcl = 1 then d.expAp else 0)

/-- Source: `raw_credits = min(base_credits, 80)`. -/
def raw_credits (hgrades hapcl : ℤ) (d : DoseDraws) : ℚ :=
  min (base_credits hgrades hapcl d) 80

/-- Source: `credit_dose[i] = max(0, raw_credits - 12) / 10` for treated rows; the
`credit_dose` array is initialised to zeros and never written for untreated
rows. -/
def credit_dose_of (treated : Bool) (hgrades hapcl : ℤ) (d : DoseDraws) : ℚ :=
  if treated then max 0 (raw_credits hgrades hapcl d - 12) / 10 else 0

/-- NumPy's `astype(int)` on a float truncates toward zero. -/
def npAstypeInt (q : ℚ) : ℤ :=
  if 0 ≤ q then ⌊q⌋ else ⌈q⌉

/-- Column `trnsfr_cr` (source lines 689-693): `12 + credit_dose*10` for treated rows,
a draw from `{0, …, 11}` for untreated rows, the whole column cast with
`astype(int)`. -/
def trnsfr_cr_of (treated : Bool) (dose : ℚ) (controlDraw : ℕ) : ℤ :=
  if treated then npAstypeInt (12 + dose * 10) else (controlDraw : ℤ)

lemma credit_dose_nonneg (treated : Bool) (hgrades hapcl : ℤ) (d : DoseDraws) :
    0 ≤ credit_dose_of treated hgrades hapcl d := by
  unfold credit_dose_of
  split
  · positivity
  · exact le_refl 0

lemma raw_credits_le (hgrades hapcl : ℤ) (d : DoseDraws) :
    raw_credits hgrades hapcl d ≤ 80 :=
  min_le_right _ _

lemma raw_credits_ge (hgrades hapcl : ℤ) (d : DoseDraws)
    (hE : 0 ≤ d.expBase) (hG : 0 ≤ d.expGrades) (hA : 0 ≤ d.expAp) :
    12 ≤ raw_credits hgrades hapcl d := by
  unfold raw_credits base_credits
  refine le_min ?_ (by norm_num)
  have h1 : (0 : ℚ) ≤ if 7 ≤ hgrades then d.expGrades else 0 := by positivity
  have h2 : (0 : ℚ) ≤ if hapcl = 1 then d.expAp else 0 := by positivity
  linarith

lemma credit_dose_le (treated : Bool) (hgrades hapcl : ℤ) (d : DoseDraws) :
    credit_dose_of treated hgrades hapcl d ≤ 6.8 := by
  unfold credit_dose_of
  have h := raw_credits_le hgrades hapcl d
  split
  · rw [div_le_iff (by norm_num : (0:ℚ) < 10)]
    rw [max_le_iff]
    constructor <;> norm_num
    linarith
  · norm_num

/-- Bounds for the materialised `trnsfr_cr` value, used for the
`DE_group_temp` binning as well. -/
lemma trnsfr_cr_range (treated : Bool) (hgrades hapcl : ℤ) (d : DoseDraws)
    (controlDraw : ℕ) (hc : controlDraw ≤ 11) :
    0 ≤ trnsfr_cr_of treated (credit_dose_of treated hgrades hapcl d) controlDraw
    ∧ trnsfr_cr_of treated (credit_dose_of treated hgrades hapcl d) controlDraw ≤ 80 := by
  unfold trnsfr_cr_of
  have hd0 := credit_dose_nonneg treated hgrades hapcl d
  have hd1 := credit_dose_le treated hgrades hapcl d
  split
  · have hq0 : (0 : ℚ) ≤ 12 + credit_dose_of treated hgrades hapcl d * 10 := by linarith
    rw [npAstypeInt, if_pos hq0]
    constructor
    · exact Int.floor_nonneg.mpr hq0
    · have hle : (12 : ℚ) + credit_dose_of treated hgrades hapcl d * 10 ≤ 80 := by
        norm_num at hd1 ⊢
        linarith
      have := Int.floor_le_floor (α := ℚ) hle
      simpa using this
  · constructor
    · positivity
    · omega

/-- C1: in the assembled table, `x_FASt = 1` iff the materialised raw credit
count `trnsfr_cr` is at least the threshold 12; every untreated row has
`credit_dose = 0`; every treated row has
`credit_dose = max(0, raw_credits - 12) / 10`. -/
theorem treatment_dose_consistency (treated : Bool) (hgrades hapcl : ℤ)
    (d : DoseDraws) (controlDraw : ℕ)
    (hE : 0 ≤ d.expBase) (hG : 0 ≤ d.expGrades) (hA : 0 ≤ d.expAp)
    (hc : controlDraw ≤ 11) :
    (treated = true ↔
      12 ≤ trnsfr_cr_of treated (credit_dose_of treated hgrades hapcl d) controlDraw)
    ∧ (treated = false → credit_dose_of treated hgrades hapcl d = 0)
    ∧ (treated = true →
        credit_dose_of treated hgrades hapcl d
          = max 0 (raw_credits hgrades hapcl d - 12) / 10) := by
  refine ⟨⟨?_, ?_⟩, ?_, ?_⟩
  · intro ht
    subst ht
    unfold trnsfr_cr_of
    rw [if_pos rfl]
    have hd0 := credit_dose_nonneg true hgrades hapcl d
    have hq0 : (0 : ℚ) ≤ 12 + credit_dose_of true hgrades hapcl d * 10 := by linarith
    rw [npAstypeInt, if_pos hq0]
    exact Int.le_floor.mpr (by push_cast; linarith)
  · intro h12
    by_contra hne
    have ht : treated = false := by
      cases treated
      · rfl
      · exact absurd rfl hne
    rw [ht] at h12
    unfold trnsfr_cr_of at h12
    simp only [Bool.false_eq_true, if_false] at h12
    omega
  · intro ht
    rw [credit_dose_of, ht]
    simp
  · intro ht
    rw [credit_dose_of, ht]
    simp

/-- Witness for C1: a treated row with concrete non-negative exponential draws,
and the same conclusion instantiated. -/
theorem treatment_dose_consistency_witness :
    ((0 : ℚ) ≤ 3 ∧ (0 : ℚ) ≤ 1 ∧ (0 : ℚ) ≤ 2 ∧ (0 : ℕ) ≤ 11)
    ∧ ((true = true ↔
        12 ≤ trnsfr_cr_of true (credit_dose_of true 7 1 ⟨3, 1, 2⟩) 0)
      ∧ (true = false → credit_dose_of true 7 1 ⟨3, 1, 2⟩ = 0)
      ∧ (true = true →
          credit_dose_of true 7 1 ⟨3, 1, 2⟩ = max 0 (raw_credits 7 1 ⟨3, 1, 2⟩ - 12) / 10)) :=
  ⟨⟨by norm_num, by norm_num, by norm_num, by norm_num⟩,
    treatment_dose_consistency true 7 1 ⟨3, 1, 2⟩ 0
      (by norm_num) (by norm_num) (by norm_num) (by norm_num)⟩

/-! ### Latent construct scores (source lines 379-436, `generate_construct_scores`)

Per-row embedding.  The baseline draw `np.random.normal(base, sd)` is modelled
as `base + noise` with the centred noise an explicit input. -/

/-- One mediator cell: baseline draw, then for treated rows the main effect
`effect * 1.5`, then — still only for treated rows — the dose moderation
`effect * dose_amplify * dose * 0.3` when `credit_dose > 0`. -/
def mediator_score (base noise effect doseAmp : ℚ) (treated : Bool) (dose : ℚ) : ℚ :=
  let s := base + noise
  if treated = true then
    let s2 := s + effect * 1.5
    if 0 < dose then s2 + effect * doseAmp * dose * 0.3 else s2
  else s

def emoDiss_score (a : ArchSpec) (noise : ℚ) (treated : Bool) (dose : ℚ) : ℚ :=
  mediator_score a.baseEmoDiss noise a.a1 a.doseAmplify treated dose

def qualEngag_score (a : ArchSpec) (noise : ℚ) (treated : Bool) (dose : ℚ) : ℚ :=
  mediator_score a.baseQualEngag noise a.a2 a.doseAmplify treated dose

lemma mediator_score_decomp (base noise effect doseAmp : ℚ) (treated : Bool) (dose : ℚ) :
    mediator_score base noise effect doseAmp treated dose
      = base + noise + (if treated = true then effect * 1.5 else 0)
        + (if treated = true ∧ 0 < dose then effect * doseAmp * dose * 0.3 else 0) := by
  unfold mediator_score
  cases treated <;> by_cases hd : 0 < dose <;> simp [hd] <;> try ring

/-- C6: for treated rows with `credit_dose > 0`, each mediator receives exactly
one moderation term `effect × dose_amplify × credit_dose × 0.3` (effect `a1`
for `EmoDiss`, `a2` for `QualEngag`) on top of the main effect; untreated rows
and treated rows with zero dose receive no moderation term. -/
theorem dose_moderation_term (a : ArchSpec) (ha : a ∈ ARCHETYPES)
    (noiseE noiseQ : ℚ) (treated : Bool) (dose : ℚ) :
    emoDiss_score a noiseE treated dose
      = a.baseEmoDiss + noiseE + (if treated = true then a.a1 * 1.5 else 0)
        + (if treated = true ∧ 0 < dose then a.a1 * a.doseAmplify * dose * 0.3 else 0)
    ∧ qualEngag_score a noiseQ treated dose
      = a.baseQualEngag + noiseQ + (if treated = true then a.a2 * 1.5 else 0)
        + (if treated = true ∧ 0 < dose then a.a2 * a.doseAmplify * dose * 0.3 else 0) :=
  ⟨mediator_score_decomp _ _ _ _ _ _, mediator_score_decomp _ _ _ _ _ _⟩

/-- Witness for C6 at archetype 1, a treated row with dose 2. -/
theorem dose_moderation_term_witness :
    (ARCHETYPES.head? = some
      ⟨1, "Latina Commuter Caretaker", 0.25, 0.65, 0.60, 0.20,
        4.2, 4.5, 2.8, 3.0, 2.7, 2.9, 0.25, -0.20, 1.2⟩)
    ∧ ∀ a : ArchSpec, ARCHETYPES.head? = some a →
        emoDiss_score a 0 true 2
          = a.baseEmoDiss + 0 + (if true = true then a.a1 * 1.5 else 0)
            + (if true = true ∧ (0:ℚ) < 2 then a.a1 * a.doseAmplify * 2 * 0.3 else 0) := by
  refine ⟨rfl, ?_⟩
  intro a hhd
  have ha : a ∈ ARCHETYPES := by
    cases hARCH : ARCHETYPES with
    | nil => rw [hARCH] at hhd; exact absurd hhd (by simp)
    | cons b rest =>
        rw [hARCH] at hhd
        simp only [List.head?_cons, Option.some.injEq] at hhd
        subst hhd
        first
          | exact List.mem_cons_self b rest
          | (rw [hARCH]; exact List.mem_cons_self b rest)
  exact (dose_moderation_term a ha 0 0 true 2).1

/-! ### Mediator → outcome propagation (source lines 409-427)

`distress_effect = (EmoDiss - 3.5) * -0.12` and
`engage_effect = (QualEngag - 5.0) * 0.10`; each of the four outcome
sub-factors adds these two terms with its own fixed multipliers. -/

def distress_effect (emoDiss : ℚ) : ℚ := (emoDiss - 3.5) * (-0.12)

def engage_effect (qualEngag : ℚ) : ℚ := (qualEngag - 5.0) * 0.10

def belong_score (base emoDiss qualEngag : ℚ) : ℚ :=
  base + distress_effect emoDiss + engage_effect qualEngag

def gains_score (base emoDiss qualEngag : ℚ) : ℚ :=
  base + distress_effect emoDiss * 0.8 + engage_effect qualEngag * 0.7

def supportEnv_score (base emoDiss qualEngag : ℚ) : ℚ :=
  base + distress_effect emoDiss * 0.9 + engage_effect qualEngag * 0.8

def satisf_score (base emoDiss qualEngag : ℚ) : ℚ :=
  base + distress_effect emoDiss + engage_effect qualEngag

inductive Subfactor
  | Belong
  | Gains
  | SupportEnv
  | Satisf
deriving DecidableEq

def outcome_score : Subfactor → ℚ → ℚ → ℚ → ℚ
  | .Belong => belong_score
  | .Gains => gains_score
  | .SupportEnv => supportEnv_score
  | .Satisf => satisf_score

/-- The pair (coefficient on `EmoDiss - 3.5`, coefficient on `QualEngag - 5.0`)
effectively applied to a given outcome sub-factor. -/
def coeffPair : Subfactor → ℚ × ℚ
  | .Belong => ((-0.12) * 1, 0.10 * 1)
  | .Gains => ((-0.12) * 0.8, 0.10 * 0.7)
  | .SupportEnv => ((-0.12) * 0.9, 0.10 * 0.8)
  | .Satisf => ((-0.12) * 1, 0.10 * 1)

/-- Counterexample for C7: the claim that no two distinct sub-factors use the
same pair of propagation coefficients is false — `Belong` and `Satisf` use the
identical pair, and the two score maps agree at a concrete input. -/
theorem outcome_coeff_pairs_not_distinct :
    coeffPair Subfactor.Belong = coeffPair Subfactor.Satisf
    ∧ Subfactor.Belong ≠ Subfactor.Satisf
    ∧ belong_score 1 2 3 = satisf_score 1 2 3 := by
  refine ⟨rfl, by decide, ?_⟩
  norm_num [belong_score, satisf_score]

/-- C7 as amended: each of the four sub-factors receives exactly two additive
propagation terms — a negative multiple of `(EmoDiss - 3.5)` and a positive
multiple of `(QualEngag - 5.0)` — with coefficient pairs that are pairwise
distinct among `Belong`, `Gains` and `SupportEnv`, while `Belong` and `Satisf`
share the same pair. -/
theorem outcome_propagation_amended (s : Subfactor) (base emoDiss qualEngag : ℚ) :
    outcome_score s base emoDiss qualEngag
      = base + (coeffPair s).1 * (emoDiss - 3.5) + (coeffPair s).2 * (qualEngag - 5.0)
    ∧ (coeffPair s).1 < 0 ∧ 0 < (coeffPair s).2
    ∧ coeffPair Subfactor.Belong ≠ coeffPair Subfactor.Gains
    ∧ coeffPair Subfactor.Belong ≠ coeffPair Subfactor.SupportEnv
    ∧ coeffPair Subfactor.Gains ≠ coeffPair Subfactor.SupportEnv
    ∧ coeffPair Subfactor.Belong = coeffPair Subfactor.Satisf := by
  refine ⟨?_, ?_, ?_, by norm_num [coeffPair], by norm_num [coeffPair],
    by norm_num [coeffPair], rfl⟩
  · cases s <;>
      simp only [outcome_score, belong_score, gains_score, supportEnv_score, satisf_score,
        distress_effect, engage_effect, coeffPair] <;> ring
  · cases s <;> norm_num [coeffPair]
  · cases s <;> norm_num [coeffPair]

/-! ### Item definitions and ordinal responses (source lines 211-249, 256-262,
439-470) -/

structure Item where
  name : String
  construct : String
  scaleMin : ℤ
  scaleMax : ℤ
  loading : ℚ
deriving DecidableEq

def ITEMS : List Item :=
  [ ⟨"sbvalued", "Belong", 1, 4, 0.82⟩,
    ⟨"sbmyself", "Belong", 1, 4, 0.78⟩,
    ⟨"sbcommunity", "Belong", 1, 4, 0.85⟩,
    ⟨"pganalyze", "Gains", 1, 4, 0.72⟩,
    ⟨"pgthink", "Gains", 1, 4, 0.80⟩,
    ⟨"pgwork", "Gains", 1, 4, 0.75⟩,
    ⟨"pgvalues", "Gains", 1, 4, 0.70⟩,
    ⟨"pgprobsolve", "Gains", 1, 4, 0.77⟩,
    ⟨"SEacademic", "SupportEnv", 1, 4, 0.80⟩,
    ⟨"SEwellness", "SupportEnv", 1, 4, 0.78⟩,
    ⟨"SEnonacad", "SupportEnv", 1, 4, 0.72⟩,
    ⟨"SEactivities", "SupportEnv", 1, 4, 0.68⟩,
    ⟨"SEdiverse", "SupportEnv", 1, 4, 0.74⟩,
    ⟨"sameinst", "Satisf", 1, 4, 0.88⟩,
    ⟨"evalexp", "Satisf", 1, 4, 0.85⟩,
    ⟨"MHWdacad", "EmoDiss", 1, 6, 0.75⟩,
    ⟨"MHWdlonely", "EmoDiss", 1, 6, 0.80⟩,
    ⟨"MHWdmental", "EmoDiss", 1, 6, 0.85⟩,
    ⟨"MHWdexhaust", "EmoDiss", 1, 6, 0.82⟩,
    ⟨"MHWdsleep", "EmoDiss", 1, 6, 0.78⟩,
    ⟨"MHWdfinancial", "EmoDiss", 1, 6, 0.65⟩,
    ⟨"QIadmin", "QualEngag", 1, 7, 0.72⟩,
    ⟨"QIstudent", "QualEngag", 1, 7, 0.75⟩,
    ⟨"QIadvisor", "QualEngag", 1, 7, 0.80⟩,
    ⟨"QIfaculty", "QualEngag", 1, 7, 0.82⟩,
    ⟨"QIstaff", "QualEngag", 1, 7, 0.78⟩ ]

/-- NumPy's `np.round` rounds to the nearest integer with ties to even; the subsequent
`int(...)` of the already-integral float is the identity. -/
def roundHalfEven (q : ℚ) : ℤ :=
  if q - ⌊q⌋ < 1/2 then ⌊q⌋
  else if 1/2 < q - ⌊q⌋ then ⌊q⌋ + 1
  else if Even ⌊q⌋ then ⌊q⌋ else ⌊q⌋ + 1

/-- NumPy's `np.clip(x, lo, hi)` is `minimum(maximum(x, lo), hi)`. -/
def npClip (x lo hi : ℤ) : ℤ := min hi (max lo x)

/-- Function `generate_ordinal_response` (source lines 256-262): the Normal measurement
error outcome is the explicit input `noise`. -/
def generate_ordinal_response (latent noise : ℚ) (scaleMin scaleMax : ℤ) : ℤ :=
  npClip (roundHalfEven (latent + noise)) scaleMin scaleMax

/-- Source: `noise_sd = (1 - loading) * 1.5` (line 463). -/
def noise_sd (loading : ℚ) : ℚ := (1 - loading) * 1.5

/-- One item cell of `generate_item_responses`: the Normal(0, noise_sd) error
is modelled as `noise_sd × z` with `z` a standard-normal outcome. -/
def item_response (it : Item) (latent z : ℚ) : ℤ :=
  generate_ordinal_response latent (noise_sd it.loading * z) it.scaleMin it.scaleMax

lemma items_scale_ok : ∀ it ∈ ITEMS, it.scaleMin ≤ it.scaleMax := by
  intro it hit
  fin_cases hit <;> norm_num

/-- C3: every generated item response is the rounding of
`latent + Normal(0, (1 - loading) * 1.5)` clipped into the item's declared
scale bounds, and is therefore always an integer within those bounds; the
function is total (clipping, never an error). -/
theorem item_response_in_bounds (it : Item) (hit : it ∈ ITEMS) (latent z : ℚ) :
    item_response it latent z
      = npClip (roundHalfEven (latent + (1 - it.loading) * 1.5 * z))
          it.scaleMin it.scaleMax
    ∧ it.scaleMin ≤ item_response it latent z
    ∧ item_response it latent z ≤ it.scaleMax := by
  have hb := items_scale_ok it hit
  refine ⟨rfl, ?_, ?_⟩ <;>
    · unfold item_response generate_ordinal_response npClip
      omega

/-- Witness for C3 at the first item with latent 100 (clipped to the top of the
scale) and z = 0. -/
theorem item_response_in_bounds_witness :
    ((⟨"sbvalued", "Belong", 1, 4, 0.82⟩ : Item) ∈ ITEMS)
    ∧ (item_response ⟨"sbvalued", "Belong", 1, 4, 0.82⟩ 100 0
        = npClip (roundHalfEven ((100 : ℚ) + (1 - (0.82 : ℚ)) * 1.5 * 0)) 1 4
      ∧ (1 : ℤ) ≤ item_response ⟨"sbvalued", "Belong", 1, 4, 0.82⟩ 100 0
      ∧ item_response ⟨"sbvalued", "Belong", 1, 4, 0.82⟩ 100 0 ≤ 4) :=
  ⟨List.mem_cons_self _ _,
    item_response_in_bounds ⟨"sbvalued", "Belong", 1, 4, 0.82⟩
      (List.mem_cons_self _ _) 100 0⟩

/-! ### Missingness (source lines 473-523, `apply_missingness`)

Cells are `Option ℚ` (`none` is the NaN marker).  The per-cell uniform draws
are the explicit input `u`. -/

def mhw_items : List String :=
  ["MHWdacad", "MHWdlonely", "MHWdmental", "MHWdexhaust", "MHWdsleep", "MHWdfinancial"]

def qi_items : List String :=
  ["QIadmin", "QIstudent", "QIadvisor", "QIfaculty", "QIstaff"]

/-- Source: `df.loc[i, col] >= 5`; a NaN comparison is False in pandas. -/
def highDistress : Option ℚ → Bool
  | some v => decide (5 ≤ v)
  | none => false

/-- MAR rate for the MHW items: base 0.05, raised to 0.10 for the Asian
archetypes (ids 3 and 4), plus 0.05 on the two named items when the
pre-masking response is at least 5. -/
def mhwRate (archId : ℕ) (col : String) (val : Option ℚ) : ℚ :=
  (if archId = 3 ∨ archId = 4 then 0.10 else 0.05)
  + (if (col = "MHWdmental" ∨ col = "MHWdlonely") ∧ highDistress val = true
      then 0.05 else 0)

/-- MCAR rate for the QI items: 0.06 for commuter archetypes (ids 1, 2, 7),
0.03 otherwise. -/
def qiRate (archId : ℕ) : ℚ :=
  if archId = 1 ∨ archId = 2 ∨ archId = 7 then 0.06 else 0.03

def apply_missingness_row (archId : ℕ) (u : String → ℚ)
    (row : String → Option ℚ) : String → Option ℚ := fun c =>
  if c ∈ mhw_items then (if u c < mhwRate archId c (row c) then none else row c)
  else if c ∈ qi_items then (if u c < qiRate archId then none else row c)
  else row c

def apply_missingness_table (archIds : List ℕ) (us : List (String → ℚ))
    (table : List (String → Option ℚ)) : List (String → Option ℚ) :=
  List.zipWith (fun (p : ℕ × (String → ℚ)) row => apply_missingness_row p.1 p.2 row)
    (archIds.zip us) table

/-! ### Centered covariates (source lines 677-686) -/

def covariate_cols : List String :=
  ["hgrades", "bparented", "hchallenge", "cSFcareer", "hapcl", "hprecalc13",
   "hacadpr13", "tcare", "credit_dose"]

def mean (xs : List ℚ) : ℚ := xs.sum / xs.length

/-- Source: `x_c = x - x.mean()`. -/
def center_col (xs : List ℚ) : List ℚ := xs.map (fun x => x - mean xs)

def getCol (table : List (String → Option ℚ)) (c : String) : List (Option ℚ) :=
  table.map (fun r => r c)

lemma row_preserved (archId : ℕ) (u : String → ℚ) (row : String → Option ℚ)
    (c : String) (h1 : c ∉ mhw_items) (h2 : c ∉ qi_items) :
    apply_missingness_row archId u row c = row c := by
  unfold apply_missingness_row
  rw [if_neg h1, if_neg h2]

lemma col_preserved (c : String) (h1 : c ∉ mhw_items) (h2 : c ∉ qi_items) :
    ∀ (archIds : List ℕ) (us : List (String → ℚ)) (table : List (String → Option ℚ)),
      archIds.length = table.length → us.length = table.length →
      getCol (apply_missingness_table archIds us table) c = getCol table c := by
  intro archIds us table
  induction table generalizing archIds us with
  | nil =>
      intro h1l h2l
      cases archIds <;> cases us <;> rfl
  | cons r rest ih =>
      intro h1l h2l
      cases archIds with
      | nil => exact absurd h1l (by simp)
      | cons a as =>
        cases us with
        | nil => exact absurd h2l (by simp)
        | cons u usr =>
          have h1l2 : as.length = rest.length := by simpa using h1l
          have h2l2 : usr.length = rest.length := by simpa using h2l
          simp only [apply_missingness_table, List.zip_cons_cons, List.zipWith_cons_cons,
            getCol, List.map_cons]
          refine congrArg₂ List.cons (row_preserved a u r c h1 h2) ?_
          exact ih as usr h1l2 h2l2

lemma reduceOption_map_some (xs : List ℚ) : (xs.map some).reduceOption = xs := by
  induction xs with
  | nil => rfl
  | cons x rest ih => simp [List.reduceOption_cons_of_some, ih]

/-- C8: for every centered covariate, the base column survives missingness
unchanged, so recomputing `x - mean(x)` from the output table's own `x`
column reproduces the stored centered column within 1e-9 (in fact exactly). -/
theorem centered_columns_idempotent (table : List (String → Option ℚ))
    (archIds : List ℕ) (us : List (String → ℚ)) (c : String) (xs : List ℚ)
    (hc : c ∈ covariate_cols)
    (hlen1 : archIds.length = table.length) (hlen2 : us.length = table.length)
    (hxs : getCol table c = xs.map some) :
    getCol (apply_missingness_table archIds us table) c = xs.map some
    ∧ List.Forall₂ (fun recomputed stored => |recomputed - stored| ≤ 1 / 1000000000)
        (center_col ((getCol (apply_missingness_table archIds us table) c).reduceOption))
        (center_col xs) := by
  have hnot : c ∉ mhw_items ∧ c ∉ qi_items := by
    fin_cases hc <;> exact ⟨by decide, by decide⟩
  have hpres := col_preserved c hnot.1 hnot.2 archIds us table hlen1 hlen2
  rw [hpres, hxs]
  refine ⟨rfl, ?_⟩
  rw [reduceOption_map_some]
  rw [List.forall₂_same]
  intro x hx
  simp

def c8row : String → Option ℚ := fun c => if c = "hgrades" then some 5 else none

def c8u : String → ℚ := fun _ => 1

/-- Witness for C8 on a one-row table whose `hgrades` column is `[5]`. -/
theorem centered_columns_idempotent_witness :
    ("hgrades" ∈ covariate_cols
      ∧ ([1].length = [c8row].length) ∧ ([c8u].length = [c8row].length)
      ∧ getCol [c8row] "hgrades" = [(5 : ℚ)].map some)
    ∧ (getCol (apply_missingness_table [1] [c8u] [c8row]) "hgrades" = [(5 : ℚ)].map some
      ∧ List.Forall₂ (fun recomputed stored => |recomputed - stored| ≤ 1 / 1000000000)
          (center_col ((getCol (apply_missingness_table [1] [c8u] [c8row]) "hgrades").reduceOption))
          (center_col [(5 : ℚ)])) :=
  ⟨⟨by decide, rfl, rfl, by simp [getCol, c8row]⟩,
    centered_columns_idempotent [c8row] [1] [c8u] "hgrades" [(5 : ℚ)]
      (by decide) rfl rfl (by simp [getCol, c8row])⟩

/-! ### Assembled output row (source lines 641-749)

One row of the assembled dataframe just before `apply_missingness`.  Every
random draw feeding the row is a field of `RowInputs`; categorical string
values (race, living situation, sex) are carried as rational codes, which is
irrelevant to the claims (only presence/absence and the numeric columns
matter).  Column means, computed table-wide in the source (lines 677-686),
are parameters (`ColMeans`). -/

structure ColMeans where
  hgrades : ℚ
  bparented : ℚ
  hchallenge : ℚ
  cSFcareer : ℚ
  hapcl : ℚ
  hprecalc13 : ℚ
  hacadpr13 : ℚ
  tcare : ℚ
  creditDose : ℚ
  stemMaj : ℚ

structure RowInputs where
  cohort : ℚ
  hgrades : ℤ
  bparented : ℚ
  pell : ℚ
  hapcl : ℤ
  hprecalc13 : ℚ
  hchallenge : ℚ
  cSFcareer : ℚ
  hacadpr13 : ℚ
  tcare : ℚ
  firstgen : ℚ
  reAll : ℚ
  living18 : ℚ
  sex : ℚ
  treated : Bool
  doseDraws : DoseDraws
  controlDraw : ℕ
  hdc17 : ℚ
  cgradesNoise : ℚ
  stemMaj : ℚ
  rDraw : ℤ
  idVal : ℚ
  itemVals : String → ℚ

def npClipQ (x lo hi : ℚ) : ℚ := min hi (max lo x)

/-- Column `Cgrades` (source lines 707-711): clip, round, `+ 3`, clip again. -/
def cgrades_val (hgrades : ℤ) (noise : ℚ) : ℤ :=
  npClip (roundHalfEven (npClipQ (4 + ((hgrades : ℚ) - 6) * 0.3 + noise) 0 4) + 3) 3 8

/-- Source: `DE_group_temp = pd.cut(trnsfr_cr, bins=[-1, 0, 11, 200], labels=[0, 1, 2])`
(source lines 700-704); `pd.cut` yields NaN outside the outermost bins. -/
def deGroup (t : ℤ) : Option ℚ :=
  if -1 < t ∧ t ≤ 0 then some 0
  else if 0 < t ∧ t ≤ 11 then some 1
  else if 11 < t ∧ t ≤ 200 then some 2
  else none

def item_columns : List String :=
  ["sbmyself", "sbvalued", "sbcommunity",
   "pgthink", "pganalyze", "pgwork", "pgvalues", "pgprobsolve",
   "SEwellness", "SEnonacad", "SEactivities", "SEacademic", "SEdiverse",
   "evalexp", "sameinst",
   "MHWdacad", "MHWdlonely", "MHWdmental", "MHWdexhaust", "MHWdsleep", "MHWdfinancial",
   "QIstudent", "QIadvisor", "QIfaculty", "QIstaff", "QIadmin"]

/-- The canonical column order (source lines 727-742). -/
def col_order : List String :=
  ["cohort", "hgrades", "hgrades_c", "Cgrades", "bparented", "bparented_c",
   "pell", "hapcl", "hapcl_c", "hprecalc13", "hprecalc13_c",
   "hchallenge", "hchallenge_c",
   "cSFcareer", "cSFcareer_c", "hacadpr13", "hacadpr13_c", "tcare", "tcare_c",
   "firstgen", "re_all", "living18", "sex",
   "StemMaj", "StemMaj_c", "trnsfr_cr", "x_FASt", "credit_dose", "credit_dose_c", "XZ_c",
   "r", "r_minus", "r_plus",
   "sbmyself", "sbvalued", "sbcommunity",
   "pgthink", "pganalyze", "pgwork", "pgvalues", "pgprobsolve",
   "SEwellness", "SEnonacad", "SEactivities", "SEacademic", "SEdiverse",
   "evalexp", "sameinst",
   "MHWdacad", "MHWdlonely", "MHWdmental", "MHWdexhaust", "MHWdsleep", "MHWdfinancial",
   "QIstudent", "QIadvisor", "QIfaculty", "QIstaff", "QIadmin",
   "id", "DE_group_temp", "hdc17", "DC_student"]

def assembledRow (inp : RowInputs) (m : ColMeans) : String → Option ℚ := fun c =>
  let dose := credit_dose_of inp.treated inp.hgrades inp.hapcl inp.doseDraws
  let trnsfr := trnsfr_cr_of inp.treated dose inp.controlDraw
  if c = "cohort" then some inp.cohort
  else if c = "hgrades" then some (inp.hgrades : ℚ)
  else if c = "hgrades_c" then some ((inp.hgrades : ℚ) - m.hgrades)
  else if c = "Cgrades" then some ((cgrades_val inp.hgrades inp.cgradesNoise : ℚ))
  else if c = "bparented" then some inp.bparented
  else if c = "bparented_c" then some (inp.bparented - m.bparented)
  else if c = "pell" then some inp.pell
  else if c = "hapcl" then some (inp.hapcl : ℚ)
  else if c = "hapcl_c" then some ((inp.hapcl : ℚ) - m.hapcl)
  else if c = "hprecalc13" then some inp.hprecalc13
  else if c = "hprecalc13_c" then some (inp.hprecalc13 - m.hprecalc13)
  else if c = "hchallenge" then some inp.hchallenge
  else if c = "hchallenge_c" then some (inp.hchallenge - m.hchallenge)
  else if c = "cSFcareer" then some inp.cSFcareer
  else if c = "cSFcareer_c" then some (inp.cSFcareer - m.cSFcareer)
  else if c = "hacadpr13" then some inp.hacadpr13
  else if c = "hacadpr13_c" then some (inp.hacadpr13 - m.hacadpr13)
  else if c = "tcare" then some inp.tcare
  else if c = "tcare_c" then some (inp.tcare - m.tcare)
  else if c = "firstgen" then some inp.firstgen
  else if c = "re_all" then some inp.reAll
  else if c = "living18" then some inp.living18
  else if c = "sex" then some inp.sex
  else if c = "StemMaj" then some inp.stemMaj
  else if c = "StemMaj_c" then some (inp.stemMaj - m.stemMaj)
  else if c = "trnsfr_cr" then some (trnsfr : ℚ)
  else if c = "x_FASt" then some (if inp.treated then 1 else 0)
  else if c = "credit_dose" then some dose
  else if c = "credit_dose_c" then some (dose - m.creditDose)
  else if c = "XZ_c" then some ((if inp.treated then 1 else 0) * (dose - m.creditDose))
  else if c = "r" then some (inp.rDraw : ℚ)
  else if c = "r_minus" then some ((inp.rDraw : ℚ) / 10 - 0.5)
  else if c = "r_plus" then some ((inp.rDraw : ℚ) / 10 + 0.5)
  else if c = "id" then some inp.idVal
  else if c = "DE_group_temp" then deGroup trnsfr
  else if c = "hdc17" then some inp.hdc17
  else if c = "DC_student" then some (if 2 ≤ inp.hdc17 then (1 : ℚ) else 0)
  else if c ∈ item_columns then some (inp.itemVals c)
  else none

lemma deGroup_ne_none (t : ℤ) (h0 : 0 ≤ t) (h80 : t ≤ 80) : deGroup t ≠ none := by
  unfold deGroup
  split_ifs <;> simp_all <;> omega

lemma mhwRate_pos (archId : ℕ) (col : String) (val : Option ℚ) :
    0 < mhwRate archId col val := by
  unfold mhwRate
  split_ifs <;> norm_num

lemma qiRate_pos (archId : ℕ) : 0 < qiRate archId := by
  unfold qiRate
  split_ifs <;> norm_num

/-- C9: after missingness, every column of the canonical schema other than the
six MHW and five QI item columns is still populated for the row, while each of
those eleven columns can be masked (a draw below the — always positive — rate
produces the missing marker). -/
theorem missingness_confined_to_items (inp : RowInputs) (m : ColMeans)
    (archId : ℕ) (u : String → ℚ) (c : String)
    (hcol : c ∈ col_order) (hm : c ∉ mhw_items) (hq : c ∉ qi_items)
    (hE : 0 ≤ inp.doseDraws.expBase) (hG : 0 ≤ inp.doseDraws.expGrades)
    (hA : 0 ≤ inp.doseDraws.expAp) (hctl : inp.controlDraw ≤ 11) :
    apply_missingness_row archId u (assembledRow inp m) c ≠ none
    ∧ ∀ c2 : String, c2 ∈ mhw_items ∨ c2 ∈ qi_items →
        apply_missingness_row archId (fun _ => 0) (assembledRow inp m) c2 = none := by
  constructor
  · rw [row_preserved archId u _ c hm hq]
    have htr := trnsfr_cr_range inp.treated inp.hgrades inp.hapcl inp.doseDraws
      inp.controlDraw hctl
    have hde := deGroup_ne_none _ htr.1 htr.2
    fin_cases hcol <;>
      first
        | (exact absurd (by decide) hm)
        | (exact absurd (by decide) hq)
        | (simp [assembledRow, item_columns]; done)
        | (simp [assembledRow, item_columns]; exact hde)
  · intro c2 hc2
    unfold apply_missingness_row
    rcases hc2 with hc2 | hc2
    · rw [if_pos hc2, if_pos (by simpa using mhwRate_pos archId c2 (assembledRow inp m c2))]
    · have hnotm : c2 ∉ mhw_items := by
        fin_cases hc2 <;> decide
      rw [if_neg hnotm, if_pos hc2, if_pos (by simpa using qiRate_pos archId)]

def w9draws : DoseDraws := ⟨3, 1, 2⟩

def w9inp : RowInputs :=
  { cohort := 1, hgrades := 7, bparented := 4, pell := 1, hapcl := 1,
    hprecalc13 := 0, hchallenge := 5, cSFcareer := 3, hacadpr13 := 8, tcare := 3,
    firstgen := 1, reAll := 0, living18 := 0, sex := 0,
    treated := true, doseDraws := w9draws, controlDraw := 0,
    hdc17 := 5, cgradesNoise := 0, stemMaj := 0, rDraw := 10, idVal := 1,
    itemVals := fun _ => 2 }

def w9means : ColMeans := ⟨6, 4, 5, 3, 0.3, 0.4, 9, 4, 1, 0.25⟩

/-- Witness for C9 at the `DE_group_temp` column of a concrete treated row. -/
theorem missingness_confined_to_items_witness :
    ("DE_group_temp" ∈ col_order ∧ "DE_group_temp" ∉ mhw_items
      ∧ "DE_group_temp" ∉ qi_items
      ∧ (0 : ℚ) ≤ w9draws.expBase ∧ (0 : ℚ) ≤ w9draws.expGrades
      ∧ (0 : ℚ) ≤ w9draws.expAp ∧ w9inp.controlDraw ≤ 11)
    ∧ (apply_missingness_row 1 (fun _ => 1) (assembledRow w9inp w9means)
        "DE_group_temp" ≠ none
      ∧ ∀ c2 : String, c2 ∈ mhw_items ∨ c2 ∈ qi_items →
          apply_missingness_row 1 (fun _ => 0) (assembledRow w9inp w9means) c2 = none) :=
  ⟨⟨by decide, by decide, by decide, by norm_num [w9draws], by norm_num [w9draws],
      by norm_num [w9draws], by norm_num [w9inp]⟩,
    missingness_confined_to_items w9inp w9means 1 (fun _ => 1) "DE_group_temp"
      (by decide) (by decide) (by decide) (by norm_num [w9inp, w9draws])
      (by norm_num [w9inp, w9draws]) (by norm_num [w9inp, w9draws])
      (by norm_num [w9inp])⟩

/-- C10: the bootstrap running-variable columns satisfy
`r_minus = r/10 - 0.5`, `r_plus = r/10 + 0.5`, `r_plus - r_minus = 1`, `r`
stays in `[-15, 34]` when the `randint(-15, 35)` draw does, and the three
columns are identical across two rows that agree on the `r` draw but may
differ in every treatment/dose field and in the column means. -/
theorem running_variable_noninterference (i1 i2 : RowInputs) (m1 m2 : ColMeans)
    (hr : i1.rDraw = i2.rDraw) (hlo : -15 ≤ i1.rDraw) (hhi : i1.rDraw < 35) :
    (assembledRow i1 m1 "r" = assembledRow i2 m2 "r"
      ∧ assembledRow i1 m1 "r_minus" = assembledRow i2 m2 "r_minus"
      ∧ assembledRow i1 m1 "r_plus" = assembledRow i2 m2 "r_plus")
    ∧ assembledRow i1 m1 "r" = some ((i1.rDraw : ℚ))
    ∧ assembledRow i1 m1 "r_minus" = some ((i1.rDraw : ℚ) / 10 - 0.5)
    ∧ assembledRow i1 m1 "r_plus" = some ((i1.rDraw : ℚ) / 10 + 0.5)
    ∧ ((i1.rDraw : ℚ) / 10 + 0.5) - ((i1.rDraw : ℚ) / 10 - 0.5) = 1
    ∧ -15 ≤ i1.rDraw ∧ i1.rDraw ≤ 34 := by
  have hval : ∀ (i : RowInputs) (m : ColMeans),
      assembledRow i m "r" = some ((i.rDraw : ℚ))
      ∧ assembledRow i m "r_minus" = some ((i.rDraw : ℚ) / 10 - 0.5)
      ∧ assembledRow i m "r_plus" = some ((i.rDraw : ℚ) / 10 + 0.5) := by
    intro i m
    refine ⟨?_, ?_, ?_⟩ <;> (simp [assembledRow]; try norm_num)
  obtain ⟨h1a, h1b, h1c⟩ := hval i1 m1
  obtain ⟨h2a, h2b, h2c⟩ := hval i2 m2
  refine ⟨⟨?_, ?_, ?_⟩, h1a, h1b, h1c, by ring, hlo, by omega⟩
  · rw [h1a, h2a, hr]
  · rw [h1b, h2b, hr]
  · rw [h1c, h2c, hr]

def w10b : RowInputs := { w9inp with treated := false, controlDraw := 3 }

/-- Witness for C10: a treated and an untreated row sharing the same `r` draw. -/
theorem running_variable_noninterference_witness :
    (w9inp.rDraw = w10b.rDraw ∧ -15 ≤ w9inp.rDraw ∧ w9inp.rDraw < 35)
    ∧ ((assembledRow w9inp w9means "r" = assembledRow w10b w9means "r"
        ∧ assembledRow w9inp w9means "r_minus" = assembledRow w10b w9means "r_minus"
        ∧ assembledRow w9inp w9means "r_plus" = assembledRow w10b w9means "r_plus")
      ∧ assembledRow w9inp w9means "r" = some ((w9inp.rDraw : ℚ))
      ∧ assembledRow w9inp w9means "r_minus" = some ((w9inp.rDraw : ℚ) / 10 - 0.5)
      ∧ assembledRow w9inp w9means "r_plus" = some ((w9inp.rDraw : ℚ) / 10 + 0.5)
      ∧ ((w9inp.rDraw : ℚ) / 10 + 0.5) - ((w9inp.rDraw : ℚ) / 10 - 0.5) = 1
      ∧ -15 ≤ w9inp.rDraw ∧ w9inp.rDraw ≤ 34) :=
  ⟨⟨rfl, by norm_num [w9inp], by norm_num [w9inp]⟩,
    running_variable_noninterference w9inp w10b w9means w9means rfl
      (by norm_num [w9inp]) (by norm_num [w9inp])⟩

/-! ### Catalog validity (C5)

The source performs no validation of `ARCHETYPES` anywhere: the dict literal
is loaded as-is and `generate_dataset` goes straight to allocation and
calibration (lines 537-562).  `specCatalogValid` below formalises the SPEC's
validity condition (prevalences sum to a positive value, probabilities in
[0,1]) purely in order to state the claim; it has no counterpart in the
source. -/

def probOk (p : ℚ) : Prop := 0 ≤ p ∧ p ≤ 1

def specCatalogValid (cat : List ArchSpec) : Prop :=
  0 < (cat.map (fun a => a.prevalence)).sum
  ∧ ∀ a ∈ cat, probOk a.prevalence ∧ probOk a.firstgenProb
      ∧ probOk a.pellProb ∧ probOk a.fastProb

/-- Generic per-archetype allocated count (the value stored in
`archetype_ns`). -/
def countForIn (cat : List ArchSpec) (N : ℕ) (a : ArchSpec) : ℤ :=
  if a.id < maxArchIdOf cat then floorAlloc N a.prevalence
  else (N : ℤ) - assignedBeforeLast cat N

/-- Source: `expected_pell` (lines 558-561). -/
def expectedPell (cat : List ArchSpec) (N : ℕ) : ℚ :=
  ((cat.map (fun a => ((countForIn cat N a : ℤ) : ℚ) * a.pellProb)).sum) / N

/-- Source: `pell_scale = PELL_TARGET / expected_pell` (line 562). -/
def pellScaleFor (cat : List ArchSpec) (N : ℕ) : ℚ :=
  PELL_TARGET / expectedPell cat N

/-- The probability handed to `np.random.binomial` for `pell`:
`min(1.0, pell_prob * pell_scale)` (source line 602). -/
def pell_param (p scale : ℚ) : ℚ := min 1 (p * scale)

/-- The catalog with archetype 1's pell probability replaced by the
out-of-range value 1.5. -/
def badArch : ArchSpec :=
  ⟨1, "Latina Commuter Caretaker", 0.25, 0.65, 1.5, 0.20,
    4.2, 4.5, 2.8, 3.0, 2.7, 2.9, 0.25, -0.20, 1.2⟩

def badCatalog : List ArchSpec := badArch :: ARCHETYPES.tail

/-- Counterexample for C5: on an invalid catalog (a declared probability of
1.5) nothing fails at load time — sample-size allocation still produces a
count for every archetype summing to N = 5000, and the invalid pell
probability is silently clipped: the parameter actually handed to the
Bernoulli sampler is exactly 1, a valid probability, so sampling proceeds and
no error is ever reported. -/
theorem invalid_catalog_generation_proceeds :
    ¬ specCatalogValid badCatalog
    ∧ (allocCountsFor badCatalog 5000).map Prod.fst
        = badCatalog.map (fun a => a.id)
    ∧ ((allocCountsFor badCatalog 5000).map Prod.snd).sum = 5000
    ∧ pell_param 1.5 (pellScaleFor badCatalog 5000) = 1 := by
  have hmax : maxArchIdOf badCatalog = 13 := by decide
  refine ⟨?_, ?_, ?_, ?_⟩
  · intro h
    have h2 := (h.2 badArch (List.mem_cons_self _ _)).2.2.1.2
    norm_num [badArch] at h2
  · simp [allocCountsFor]
  · rw [show allocCountsFor badCatalog 5000
        = badCatalog.map (fun a =>
            (a.id,
              if a.id < maxArchIdOf badCatalog then floorAlloc 5000 a.prevalence
              else (5000 : ℤ) - assignedBeforeLast badCatalog 5000)) from rfl]
    rw [hmax]
    rw [show badCatalog = badArch :: ARCHETYPES.tail from rfl]
    norm_num [badArch, ARCHETYPES, assignedBeforeLast, maxArchIdOf, floorAlloc]
  · rw [pell_param, pellScaleFor, expectedPell]
    rw [show badCatalog = badArch :: ARCHETYPES.tail from rfl]
    norm_num [badArch, ARCHETYPES, countForIn, assignedBeforeLast, maxArchIdOf,
      floorAlloc, PELL_TARGET]

/-- C5 as amended: the generator performs no catalog validation at load time.
For every catalog — valid or not — allocation produces an entry for every
archetype and calibration proceeds; an out-of-range pell probability is
clipped into range by `min(1, p * pell_scale)` during sampling instead of
being reported as an error. -/
theorem no_catalog_validation_amended (cat : List ArchSpec) (N : ℕ) :
    (allocCountsFor cat N).map Prod.fst = cat.map (fun a => a.id)
    ∧ (allocCountsFor cat N).length = cat.length
    ∧ ∀ p s : ℚ, pell_param p s ≤ 1 := by
  refine ⟨?_, ?_, fun p s => min_le_left _ _⟩
  · simp [allocCountsFor]
  · simp [allocCountsFor]

/-! ### The full run as a function of (N, seed) (C2)

The source seeds NumPy's global generator exactly once (`np.random.seed(42)`,
line 29) and every subsequent draw reads that single stream, with the
archetype batches processed in the dict's insertion order (ascending id).
The embedding makes this explicit: a deterministic stream of pseudo-random
words derived from the seed (a linear congruential step stands in for the
Mersenne Twister — the particular update is irrelevant to the determinism
property), a fixed per-row block of stream slots, and batches laid out in
catalog order.  The distributional inverse-transforms are schematic (any
measurable transform of the uniform stream yields the same determinism
property), while every structural component — allocation, propensity,
treatment, dose, mediators, outcome propagation, item responses, assembly,
shuffle, missingness — reuses the per-stage definitions above. -/

def lcgNext (s : ℕ) : ℕ := (1103515245 * s + 12345) % 2147483648

def streamAt (seed : ℕ) : ℕ → ℕ
  | 0 => lcgNext seed
  | k + 1 => lcgNext (streamAt seed k)

def draw (seed k : ℕ) : ℚ := (streamAt seed k : ℚ) / 2147483648

def rowSlots : ℕ := 64

def countFor (N : ℕ) (a : ArchSpec) : ℕ := (countForIn ARCHETYPES N a).toNat

/-- Source: `expected_base_fast` (lines 552-555). -/
def expectedBaseFast (N : ℕ) : ℚ :=
  ((ARCHETYPES.map (fun a => ((countForIn ARCHETYPES N a : ℤ) : ℚ) * a.fastProb)).sum) / N

/-- Source: `fast_scale = min(1.0, FAST_TARGET / expected_base_fast)` (source
line 556). -/
def fastScaleFor (N : ℕ) : ℚ := min 1 (FAST_TARGET / expectedBaseFast N)

def item_z (seed base : ℕ) (c : String) : ℚ :=
  2 * draw seed (base + 24 + item_columns.indexOf c) - 1

def rowFromStream (a : ArchSpec) (fastScale pellScale : ℚ) (seed base : ℕ) :
    RowInputs :=
  let hgrades : ℤ := 4 + (streamAt seed base % 5 : ℕ)
  let hapcl : ℤ := if draw seed (base + 1) < 0.2 then 1 else 0
  let bparented : ℚ := 1 + (streamAt seed (base + 2) % 8 : ℕ)
  let p := propensity a.fastProb fastScale hgrades hapcl bparented
  let treated : Bool := decide (draw seed (base + 3) < p)
  let dd : DoseDraws :=
    ⟨15 * draw seed (base + 4), 10 * draw seed (base + 5), 8 * draw seed (base + 6)⟩
  let dose := credit_dose_of treated hgrades hapcl dd
  let emo := emoDiss_score a (0.8 * (2 * draw seed (base + 7) - 1)) treated dose
  let qua := qualEngag_score a (0.9 * (2 * draw seed (base + 8) - 1)) treated dose
  let latentOf : String → ℚ := fun con =>
    if con = "EmoDiss" then emo
    else if con = "QualEngag" then qua
    else if con = "Belong" then
      outcome_score .Belong (a.baseBelong + 0.6 * (2 * draw seed (base + 9) - 1)) emo qua
    else if con = "Gains" then
      outcome_score .Gains (a.baseGains + 0.5 * (2 * draw seed (base + 10) - 1)) emo qua
    else if con = "SupportEnv" then
      outcome_score .SupportEnv
        (a.baseSupportEnv + 0.55 * (2 * draw seed (base + 11) - 1)) emo qua
    else
      outcome_score .Satisf (a.baseSatisf + 0.5 * (2 * draw seed (base + 12) - 1)) emo qua
  { cohort := if draw seed (base + 13) < 0.5 then 1 else 0
    hgrades := hgrades
    bparented := bparented
    pell := if draw seed (base + 14) < pell_param a.pellProb pellScale then 1 else 0
    hapcl := hapcl
    hprecalc13 := if draw seed (base + 15) < 0.3 then 1 else 0
    hchallenge := (npAstypeInt (npClipQ (5 + 1.2 * (2 * draw seed (base + 16) - 1)) 1 7) : ℚ)
    cSFcareer := (npAstypeInt (npClipQ (2.8 + 0.8 * (2 * draw seed (base + 17) - 1)) 1 4) : ℚ)
    hacadpr13 := (streamAt seed (base + 18) % 36 : ℕ)
    tcare := (streamAt seed (base + 19) % 36 : ℕ)
    firstgen := if draw seed (base + 20) < a.firstgenProb then 1 else 0
    reAll := (streamAt seed (base + 21) % 5 : ℕ)
    living18 := (streamAt seed (base + 21) % 3 : ℕ)
    sex := (streamAt seed (base + 22) % 2 : ℕ)
    treated := treated
    doseDraws := dd
    controlDraw := streamAt seed (base + 23) % 12
    hdc17 := if treated then (4 + (streamAt seed (base + 50) % 4 : ℕ) : ℚ)
      else (1 + (streamAt seed (base + 50) % 3 : ℕ) : ℚ)
    cgradesNoise := 0.8 * (2 * draw seed (base + 51) - 1)
    stemMaj := if draw seed (base + 52) < 0.25 then 1 else 0
    rDraw := -15 + (streamAt seed (base + 53) % 50 : ℕ)
    idVal := 0
    itemVals := fun c =>
      match ITEMS.find? (fun it => it.name = c) with
      | some it => ((item_response it (latentOf it.construct) (item_z seed base c)) : ℚ)
      | none => 0 }

/-- Batches laid out in catalog order, each consuming a contiguous block of
stream slots. -/
def rowsAux (seed : ℕ) (fastScale pellScale : ℚ) (N : ℕ) :
    List ArchSpec → ℕ → List (ℕ × RowInputs)
  | [], _ => []
  | a :: rest, off =>
      (List.range (countFor N a)).map
        (fun j => (a.id, rowFromStream a fastScale pellScale seed (off + j * rowSlots)))
      ++ rowsAux seed fastScale pellScale N rest (off + countFor N a * rowSlots)

def rowsOfRun (N seed : ℕ) : List (ℕ × RowInputs) :=
  rowsAux seed (fastScaleFor N) (pellScaleFor ARCHETYPES N) N ARCHETYPES 0

def colMeansOf (rows : List (ℕ × RowInputs)) : ColMeans :=
  { hgrades := mean (rows.map (fun r => (r.2.hgrades : ℚ)))
    bparented := mean (rows.map (fun r => r.2.bparented))
    hchallenge := mean (rows.map (fun r => r.2.hchallenge))
    cSFcareer := mean (rows.map (fun r => r.2.cSFcareer))
    hapcl := mean (rows.map (fun r => (r.2.hapcl : ℚ)))
    hprecalc13 := mean (rows.map (fun r => r.2.hprecalc13))
    hacadpr13 := mean (rows.map (fun r => r.2.hacadpr13))
    tcare := mean (rows.map (fun r => r.2.tcare))
    creditDose := mean (rows.map (fun r =>
      credit_dose_of r.2.treated r.2.hgrades r.2.hapcl r.2.doseDraws))
    stemMaj := mean (rows.map (fun r => r.2.stemMaj)) }

/-- The global shuffle (`np.random.permutation`, line 669) modelled as a
stream-indexed rotation — a deterministic permutation of the rows. -/
def shuffledRows (N seed : ℕ) : List (ℕ × RowInputs) :=
  let rows := rowsOfRun N seed
  rows.rotate (streamAt seed (N * rowSlots) % (rows.length + 1))

/-- One full run: the assembled, missingness-masked primary table plus the
(id, archetype_id) assignment table. -/
def generateRun (N seed : ℕ) :
    List (String → Option ℚ) × List (ℚ × ℕ) :=
  let rows := shuffledRows N seed
  let m := colMeansOf rows
  let out := rows.enum.map (fun p =>
    apply_missingness_row p.2.1
      (fun c => draw seed (N * rowSlots + 1 + p.1 * rowSlots + item_columns.indexOf c))
      (assembledRow { p.2.2 with idVal := (p.1 : ℚ) + 1 } m))
  (out, rows.enum.map (fun p => ((p.1 : ℚ) + 1, p.2.1)))

lemma rowsAux_ids (seed : ℕ) (fs ps : ℚ) (N : ℕ) :
    ∀ (l : List ArchSpec) (off : ℕ),
      (rowsAux seed fs ps N l off).map Prod.fst
        = l.flatMap (fun a => List.replicate (countFor N a) a.id) := by
  intro l
  induction l with
  | nil => intro off; rfl
  | cons a rest ih =>
      intro off
      rw [show rowsAux seed fs ps N (a :: rest) off
          = (List.range (countFor N a)).map
              (fun j => (a.id, rowFromStream a fs ps seed (off + j * rowSlots)))
            ++ rowsAux seed fs ps N rest (off + countFor N a * rowSlots) from rfl]
      rw [List.map_append, List.map_map, ih]
      rw [List.flatMap_cons]
      congr 1
      rw [show (Prod.fst ∘ fun j =>
            ((a.id, rowFromStream a fs ps seed (off + j * rowSlots)) : ℕ × RowInputs))
          = fun _ => a.id from rfl]
      rw [List.map_const', List.length_range]

/-- C2: the entire output (primary table and archetype-assignment table) is a
deterministic function of the pair (N, seed) — two runs agreeing on N and
seed produce identical outputs — with the archetype batches laid out in
strictly ascending archetype-id order. -/
theorem generator_deterministic (N₁ N₂ seed₁ seed₂ : ℕ)
    (hN : N₁ = N₂) (hseed : seed₁ = seed₂) :
    generateRun N₁ seed₁ = generateRun N₂ seed₂
    ∧ (rowsOfRun N₁ seed₁).map Prod.fst
        = ARCHETYPES.flatMap (fun a => List.replicate (countFor N₁ a) a.id)
    ∧ ARCHETYPES.map (fun a => a.id) = [1, 2, 3, 4, 5, 6, 7, 8, 9, 10, 11, 12, 13]
    ∧ List.Chain' (· < ·) (ARCHETYPES.map (fun a => a.id)) := by
  subst hN
  subst hseed
  refine ⟨rfl, rowsAux_ids seed₁ _ _ N₁ ARCHETYPES 0, by decide, ?_⟩
  norm_num [ARCHETYPES, List.chain'_cons]

/-- Witness for C2 at N = 2, seed = 42. -/
theorem generator_deterministic_witness :
    ((2 : ℕ) = 2 ∧ (42 : ℕ) = 42)
    ∧ (generateRun 2 42 = generateRun 2 42
      ∧ (rowsOfRun 2 42).map Prod.fst
          = ARCHETYPES.flatMap (fun a => List.replicate (countFor 2 a) a.id)
      ∧ ARCHETYPES.map (fun a => a.id) = [1, 2, 3, 4, 5, 6, 7, 8, 9, 10, 11, 12, 13]
      ∧ List.Chain' (· < ·) (ARCHETYPES.map (fun a => a.id))) :=
  ⟨⟨rfl, rfl⟩, generator_deterministic 2 2 42 42 rfl rfl⟩

end ProcessSEM
